import Mathlib

/-!
Shallow embedding of `src/mortgage.py` (fixed-rate mortgage calculator).

Python floats are modelled as rationals (ℚ); `math.ceil` is `Int.ceil`.
A Python expression that raises `ZeroDivisionError` is modelled by `Option`:
`none` stands for the raised exception.  The `while` loop of
`remaining_payments` need not terminate, so it is embedded as a fuel-indexed
function: `none` means the computation did not finish within the given fuel
(or an inner call raised).
-/

namespace Mortgage

/-- Embeds `get_min_payment(mortgage_amount, annual_interest_rate, years=30,
num_annual_payments=12)`: `r = annual_interest_rate / num_annual_payments`,
`n = years * num_annual_payments`, result
`ceil(mortgage_amount * r * (1+r)**n / ((1+r)**n - 1))`.
Python raises `ZeroDivisionError` when `num_annual_payments == 0` (computing
`r`) or when `(1+r)**n - 1 == 0.0` (the final division); both are `none`. -/
def get_min_payment (mortgage_amount annual_interest_rate : ℚ)
    (years num_annual_payments : ℕ) : Option ℤ :=
  if num_annual_payments = 0 then none
  else
    let r : ℚ := annual_interest_rate / (num_annual_payments : ℚ)
    let n : ℕ := years * num_annual_payments
    if (1 + r) ^ n - 1 = 0 then none
    else some ⌈mortgage_amount * r * (1 + r) ^ n / ((1 + r) ^ n - 1)⌉

/-- Embeds `interest_due(balance, annual_interest_rate, num_annual_payments=12)`:
`r = annual_interest_rate / num_annual_payments`, result `balance * r`. -/
def interest_due (balance annual_interest_rate : ℚ) (num_annual_payments : ℕ) : ℚ :=
  balance * (annual_interest_rate / (num_annual_payments : ℚ))

/-- The payment chosen by one iteration of the loop in `remaining_payments`
(lines 68-72): with no target payment, `get_min_payment(balance,
annual_interest_rate)` at its defaults `years=30, num_annual_payments=12`
(`none` if that call raises); with a target, `min(target_payment, balance +
interest_due_value)`. -/
def sim_payment (balance interest_due_value annual_interest_rate : ℚ)
    (target_payment : Option ℚ) : Option ℚ :=
  match target_payment with
  | none => (get_min_payment balance annual_interest_rate 30 12).map (fun z => (z : ℚ))
  | some t => some (min t (balance + interest_due_value))

/-- Fuel-indexed embedding of `remaining_payments(balance,
annual_interest_rate, target_payment, num_annual_payments=12)`:
`while balance > 0:` compute the interest due, choose the payment, subtract
`payment - interest_due_value` from the balance and count one payment.
`some k` means the loop exits after exactly `k` payments within the given
fuel; `none` means fuel ran out with a positive balance (the Python loop is
still running) or the payment computation raised. -/
def remaining_payments_fuel :
    ℕ → ℚ → ℚ → Option ℚ → ℕ → Option ℕ
  | 0, balance, _, _, _ => if 0 < balance then none else some 0
  | (fuel + 1), balance, annual_interest_rate, target_payment, num_annual_payments =>
    if 0 < balance then
      let i := interest_due balance annual_interest_rate num_annual_payments
      match sim_payment balance i annual_interest_rate target_payment with
      | none => none
      | some payment =>
          (remaining_payments_fuel fuel (balance - (payment - i))
            annual_interest_rate target_payment num_annual_payments).map (fun k => k + 1)
    else some 0

/-- The second line printed by `main`: either the insufficiency warning
(line 102, which reports no payment count) or the payoff report with the
target payment and the total number of payments (line 106). -/
inductive MainOutcome
  | warning
  | payoff (target : ℚ) (total : ℕ)
deriving DecidableEq

/-- What `main` prints: the minimum payment (line 94) and the second line. -/
structure MainResult where
  minimum_payment : ℤ
  outcome : MainOutcome
deriving DecidableEq

/-- Embeds `main(mortgage_amount, annual_interest_rate, years=30,
num_annual_payments=12, target_payment=None)`: compute the minimum payment,
default the target to it, print the warning if `target_payment <
minimum_payment`, otherwise run `remaining_payments` and report the count.
`none` models a raised exception or a still-running simulation (fuel). -/
def main_fuel (fuel : ℕ) (mortgage_amount annual_interest_rate : ℚ)
    (years num_annual_payments : ℕ) (target_payment : Option ℚ) : Option MainResult :=
  match get_min_payment mortgage_amount annual_interest_rate years num_annual_payments with
  | none => none
  | some minimum_payment =>
    let target : ℚ := target_payment.getD (minimum_payment : ℚ)
    if target < (minimum_payment : ℚ) then
      some ⟨minimum_payment, MainOutcome.warning⟩
    else
      match remaining_payments_fuel fuel mortgage_amount annual_interest_rate
          (some target) num_annual_payments with
      | none => none
      | some total => some ⟨minimum_payment, MainOutcome.payoff target total⟩

/-- The argparse namespace built by `parser.parse_args()` on line 151 from the
process's actual command line (`sys.argv`); argparse's own string parsing is
the CLI front end, outside the embedded core. -/
structure Args where
  mortgage_amount : ℚ
  annual_interest_rate : ℚ
  years : ℤ
  num_annual_payments : ℤ
  target_payment : Option ℚ
deriving DecidableEq

/-- The condition of line 160, `args.target_payment and args.target_payment < 0`,
with Python truthiness: `None` is falsy, and a float is falsy exactly when it
is `0.0`, so for a zero target the `< 0` comparison is never evaluated. -/
def target_payment_check : Option ℚ → Bool
  | none => false
  | some t => if t = 0 then false else decide (t < 0)

/-- The validation block of `parse_args` (lines 152-163). -/
def validate_args (args : Args) : Except String Args :=
  if args.mortgage_amount < 0 then Except.error "mortgage amount must be positive"
  else if ¬ (0 ≤ args.annual_interest_rate ∧ args.annual_interest_rate ≤ 1) then
    Except.error "annual interest rate must be between 0 and 1"
  else if args.years < 1 then Except.error "years must be positive"
  else if args.num_annual_payments < 0 then
    Except.error "number of payments per year must be positive"
  else if target_payment_check args.target_payment then
    Except.error "target payment must be positive"
  else Except.ok args

/-- Embeds `parse_args(arglist)`: line 151 calls `parser.parse_args()` with no
argument, so the parser reads the process's `sys.argv` (whose parsed namespace
is `sys_argv_args`) and `arglist` is never used. -/
def parse_args (arglist : List String) (sys_argv_args : Args) : Except String Args :=
  validate_args sys_argv_args

/-- The amortizing-payment formula exactly as the spec states it: periodic
rate `r = annualRate / paymentsPerYear`, period count `n = term ×
paymentsPerYear`, result `principal × r × (1+r)^n / ((1+r)^n − 1)` rounded up
to the nearest whole currency unit (ceiling). -/
def minimumPayment_spec (principal annualRate : ℚ) (term paymentsPerYear : ℕ) : ℤ :=
  let r : ℚ := annualRate / (paymentsPerYear : ℚ)
  let n : ℕ := term * paymentsPerYear
  ⌈principal * r * (1 + r) ^ n / ((1 + r) ^ n - 1)⌉

/-! Helper lemmas -/

/-- The loop body is skipped entirely when the balance is not positive. -/
lemma remaining_payments_fuel_nonpos (fuel : ℕ) (balance annual_interest_rate : ℚ)
    (target_payment : Option ℚ) (num_annual_payments : ℕ) (h : ¬ 0 < balance) :
    remaining_payments_fuel fuel balance annual_interest_rate target_payment
      num_annual_payments = some 0 := by
  cases fuel <;> simp [remaining_payments_fuel, h]

/-- Geometric growth bound: `x^n - 1 ≤ n * (x - 1) * x^n` for `x ≥ 1`. -/
lemma pow_sub_one_le_mul (x : ℚ) (hx : 1 ≤ x) :
    ∀ n : ℕ, x ^ n - 1 ≤ (n : ℚ) * (x - 1) * x ^ n := by
  intro n
  induction n with
  | zero => simp
  | succ n ih =>
    have hx0 : (0:ℚ) ≤ x := le_trans zero_le_one hx
    have hxn : (1:ℚ) ≤ x ^ (n + 1) := one_le_pow₀ hx
    have h1 : x * (x ^ n - 1) ≤ x * ((n : ℚ) * (x - 1) * x ^ n) :=
      mul_le_mul_of_nonneg_left ih hx0
    have h2 : x - 1 ≤ (x - 1) * x ^ (n + 1) := by
      nlinarith [hxn, sub_nonneg.mpr hx]
    have key : x ^ (n + 1) - 1 = x * (x ^ n - 1) + (x - 1) := by ring
    push_cast
    nlinarith [h1, h2]

/-- Under the preconditions of the spec, `get_min_payment` reaches the final
division and returns the ceiling of the amortization formula. -/
lemma get_min_payment_eq (P rate : ℚ) (T F : ℕ) (hr : 0 < rate) (hT : 1 ≤ T) (hF : 1 ≤ F) :
    get_min_payment P rate T F =
      some ⌈P * (rate / (F:ℚ)) * (1 + rate / (F:ℚ)) ^ (T * F) /
        ((1 + rate / (F:ℚ)) ^ (T * F) - 1)⌉ := by
  have hF0 : F ≠ 0 := by omega
  have hFq : (0:ℚ) < (F:ℚ) := by
    exact_mod_cast Nat.pos_of_ne_zero hF0
  have hrF : 0 < rate / (F:ℚ) := div_pos hr hFq
  have hx : 1 < 1 + rate / (F:ℚ) := by linarith
  have hn : T * F ≠ 0 := by positivity
  have hpow : 1 < (1 + rate / (F:ℚ)) ^ (T * F) := one_lt_pow₀ hx hn
  have hden : (1 + rate / (F:ℚ)) ^ (T * F) - 1 ≠ 0 := by linarith
  simp only [get_min_payment, if_neg hF0, if_neg hden]

/-- If the payment `p` is large enough to amortize the balance `B` in `m`
periods (`B·r·(1+r)^m ≤ p·((1+r)^m − 1)`), the simulation with target `p`
finishes within fuel `m`, in at most `m` payments. -/
lemma run_terminates (rate : ℚ) (F : ℕ) (hr : 0 < rate / (F:ℚ)) :
    ∀ (m : ℕ) (B p : ℚ),
      B * (rate / (F:ℚ)) * (1 + rate / (F:ℚ)) ^ m ≤
        p * ((1 + rate / (F:ℚ)) ^ m - 1) →
      ∃ k ≤ m, remaining_payments_fuel m B rate (some p) F = some k := by
  intro m
  induction m with
  | zero =>
    intro B p hinv
    refine ⟨0, le_refl 0, ?_⟩
    have hB : ¬ 0 < B := by
      intro hB
      simp only [pow_zero, mul_one, sub_self, mul_zero] at hinv
      nlinarith [mul_pos hB hr]
    simp [remaining_payments_fuel, hB]
  | succ m ih =>
    intro B p hinv
    by_cases hB : 0 < B
    · have hi : interest_due B rate F = B * (rate / (F:ℚ)) := rfl
      rcases le_total p (B + interest_due B rate F) with hp | hp
      · have hstep :
            remaining_payments_fuel (m + 1) B rate (some p) F =
              (remaining_payments_fuel m (B - (p - interest_due B rate F)) rate
                (some p) F).map (fun k => k + 1) := by
          simp [remaining_payments_fuel, hB, sim_payment, min_eq_left hp]
        have hinv2 :
            (B - (p - interest_due B rate F)) * (rate / (F:ℚ)) *
                (1 + rate / (F:ℚ)) ^ m ≤
              p * ((1 + rate / (F:ℚ)) ^ m - 1) := by
          have e1 : (B - (p - interest_due B rate F)) * (rate / (F:ℚ)) *
                (1 + rate / (F:ℚ)) ^ m =
              B * (rate / (F:ℚ)) * (1 + rate / (F:ℚ)) ^ (m + 1) -
                p * (rate / (F:ℚ)) * (1 + rate / (F:ℚ)) ^ m := by
            rw [hi]; ring
          have e2 : p * ((1 + rate / (F:ℚ)) ^ (m + 1) - 1) -
                p * (rate / (F:ℚ)) * (1 + rate / (F:ℚ)) ^ m =
              p * ((1 + rate / (F:ℚ)) ^ m - 1) := by ring
          rw [e1, ← e2]
          exact sub_le_sub_right hinv _
        rcases ih _ _ hinv2 with ⟨k, hk, hrun⟩
        refine ⟨k + 1, Nat.succ_le_succ hk, ?_⟩
        rw [hstep, hrun]
        rfl
      · have hstep :
            remaining_payments_fuel (m + 1) B rate (some p) F =
              (remaining_payments_fuel m
                (B - ((B + interest_due B rate F) - interest_due B rate F)) rate
                (some p) F).map (fun k => k + 1) := by
          simp [remaining_payments_fuel, hB, sim_payment, min_eq_right hp]
        have hz : B - ((B + interest_due B rate F) - interest_due B rate F) = 0 := by
          ring
        refine ⟨1, by omega, ?_⟩
        rw [hstep, hz,
          remaining_payments_fuel_nonpos _ _ _ _ _ (by norm_num)]
        rfl
    · exact ⟨0, Nat.zero_le _, remaining_payments_fuel_nonpos _ _ _ _ _ hB⟩

/-- If the payment `p` is too small to amortize the balance `B` in `m` periods
(strict inequality the other way), then however much fuel the simulation is
given, a completed run takes strictly more than `m` payments. -/
lemma run_lower (rate : ℚ) (F : ℕ) (hr : 0 < rate / (F:ℚ)) :
    ∀ (m : ℕ) (B p : ℚ), 0 ≤ p →
      p * ((1 + rate / (F:ℚ)) ^ m - 1) <
        B * (rate / (F:ℚ)) * (1 + rate / (F:ℚ)) ^ m →
      ∀ (fuel k : ℕ),
        remaining_payments_fuel fuel B rate (some p) F = some k → m < k := by
  intro m
  induction m with
  | zero =>
    intro B p hp hanti fuel k hrun
    simp only [pow_zero, sub_self, mul_zero, mul_one] at hanti
    have hB : 0 < B := by nlinarith
    cases fuel with
    | zero => simp [remaining_payments_fuel, hB] at hrun
    | succ f =>
      simp only [remaining_payments_fuel, if_pos hB, sim_payment,
        Option.map_eq_some'] at hrun
      rcases hrun with ⟨k1, _, hk1⟩
      omega
  | succ m ih =>
    intro B p hp hanti fuel k hrun
    have hx : 1 < 1 + rate / (F:ℚ) := by linarith
    have hxm : (1:ℚ) ≤ (1 + rate / (F:ℚ)) ^ (m + 1) := one_le_pow₀ hx.le
    have hB : 0 < B := by
      by_contra hB
      push_neg at hB
      have h1 : 0 ≤ p * ((1 + rate / (F:ℚ)) ^ (m + 1) - 1) :=
        mul_nonneg hp (by linarith)
      have h2 : B * (rate / (F:ℚ)) * (1 + rate / (F:ℚ)) ^ (m + 1) ≤ 0 := by
        have hpow : (0:ℚ) < (1 + rate / (F:ℚ)) ^ (m + 1) := by positivity
        nlinarith [mul_nonpos_of_nonpos_of_nonneg hB hr.le]
      linarith
    have hplt : p < B + interest_due B rate F := by
      by_contra hple
      push_neg at hple
      have hi : interest_due B rate F = B * (rate / (F:ℚ)) := rfl
      rw [hi] at hple
      have hxm1 : 1 + rate / (F:ℚ) ≤ (1 + rate / (F:ℚ)) ^ (m + 1) :=
        le_self_pow₀ hx.le (by omega)
      have h1 : (B + B * (rate / (F:ℚ))) * ((1 + rate / (F:ℚ)) ^ (m + 1) - 1) ≤
          p * ((1 + rate / (F:ℚ)) ^ (m + 1) - 1) :=
        mul_le_mul_of_nonneg_right hple (by linarith)
      have h2 : B * (rate / (F:ℚ)) * (1 + rate / (F:ℚ)) ^ (m + 1) ≤
          (B + B * (rate / (F:ℚ))) * ((1 + rate / (F:ℚ)) ^ (m + 1) - 1) := by
        nlinarith [mul_nonneg hB.le (sub_nonneg.mpr hxm1)]
      linarith
    cases fuel with
    | zero => simp [remaining_payments_fuel, hB] at hrun
    | succ f =>
      have hstep :
          remaining_payments_fuel (f + 1) B rate (some p) F =
            (remaining_payments_fuel f (B - (p - interest_due B rate F)) rate
              (some p) F).map (fun k => k + 1) := by
        simp [remaining_payments_fuel, hB, sim_payment, min_eq_left hplt.le]
      rw [hstep, Option.map_eq_some'] at hrun
      rcases hrun with ⟨k1, hk1run, hk1⟩
      have hanti2 :
          p * ((1 + rate / (F:ℚ)) ^ m - 1) <
            (B - (p - interest_due B rate F)) * (rate / (F:ℚ)) *
              (1 + rate / (F:ℚ)) ^ m := by
        have hi : interest_due B rate F = B * (rate / (F:ℚ)) := rfl
        have e1 : (B - (p - interest_due B rate F)) * (rate / (F:ℚ)) *
              (1 + rate / (F:ℚ)) ^ m =
            B * (rate / (F:ℚ)) * (1 + rate / (F:ℚ)) ^ (m + 1) -
              p * (rate / (F:ℚ)) * (1 + rate / (F:ℚ)) ^ m := by
          rw [hi]; ring
        have e2 : p * ((1 + rate / (F:ℚ)) ^ (m + 1) - 1) -
              p * (rate / (F:ℚ)) * (1 + rate / (F:ℚ)) ^ m =
            p * ((1 + rate / (F:ℚ)) ^ m - 1) := by ring
        rw [e1, ← e2]
        exact sub_lt_sub_right hanti _
      have := ih _ _ hp hanti2 f k1 hk1run
      omega

/-! Claim theorems -/

/-- Claim C1: for every mortgage amount > 0, annual rate with 0 < rate < 1,
term ≥ 1 and payments-per-year ≥ 1, `get_min_payment` returns exactly the
ceiling (round up) of `mortgage_amount * r * (1+r)^n / ((1+r)^n - 1)` with
`r = annualRate / paymentsPerYear` and `n = years * paymentsPerYear`. -/
theorem get_min_payment_is_spec_ceiling (P rate : ℚ) (T F : ℕ)
    (hP : 0 < P) (hr0 : 0 < rate) (hr1 : rate < 1) (hT : 1 ≤ T) (hF : 1 ≤ F) :
    get_min_payment P rate T F = some (minimumPayment_spec P rate T F) :=
  get_min_payment_eq P rate T F hr0 hT hF

/-- Claim C1 witness. -/
theorem get_min_payment_is_spec_ceiling_witness :
    0 < (1000:ℚ) ∧ 0 < (1/10:ℚ) ∧ (1/10:ℚ) < 1 ∧ 1 ≤ 1 ∧ 1 ≤ 1 ∧
      get_min_payment 1000 (1/10) 1 1 = some (minimumPayment_spec 1000 (1/10) 1 1) :=
  ⟨by norm_num, by norm_num, by norm_num, le_refl 1, le_refl 1,
    get_min_payment_is_spec_ceiling 1000 (1/10) 1 1 (by norm_num) (by norm_num)
      (by norm_num) (le_refl 1) (le_refl 1)⟩

/-- Claim C2: for principal `P > 0`, rate `0 < rate < 1`, term `T ≥ 1`,
frequency `F ≥ 1`, the minimum payment is a positive integer at least
`P / (T·F)`, and the payoff simulation run with exactly that payment as the
target terminates within at most `T·F` periods. -/
theorem min_payment_amortizes_within_term (P rate : ℚ) (T F : ℕ) (mp : ℤ)
    (hP : 0 < P) (hr0 : 0 < rate) (hr1 : rate < 1) (hT : 1 ≤ T) (hF : 1 ≤ F)
    (hmp : get_min_payment P rate T F = some mp) :
    0 < mp ∧ P / ((T:ℚ) * (F:ℚ)) ≤ (mp:ℚ) ∧
      ∃ k ≤ T * F, remaining_payments_fuel (T * F) P rate (some (mp:ℚ)) F = some k := by
  have hFq : (0:ℚ) < (F:ℚ) := by exact_mod_cast lt_of_lt_of_le zero_lt_one hF
  have hr : 0 < rate / (F:ℚ) := div_pos hr0 hFq
  have hx : 1 < 1 + rate / (F:ℚ) := by linarith
  have hn : T * F ≠ 0 := by positivity
  have hpow : 1 < (1 + rate / (F:ℚ)) ^ (T * F) := one_lt_pow₀ hx hn
  have hden : (0:ℚ) < (1 + rate / (F:ℚ)) ^ (T * F) - 1 := by linarith
  rw [get_min_payment_eq P rate T F hr0 hT hF] at hmp
  obtain rfl : mp = ⌈P * (rate / (F:ℚ)) * (1 + rate / (F:ℚ)) ^ (T * F) /
      ((1 + rate / (F:ℚ)) ^ (T * F) - 1)⌉ := (Option.some.inj hmp).symm
  have hnum : (0:ℚ) < P * (rate / (F:ℚ)) * (1 + rate / (F:ℚ)) ^ (T * F) := by positivity
  have hform_pos : (0:ℚ) < P * (rate / (F:ℚ)) * (1 + rate / (F:ℚ)) ^ (T * F) /
      ((1 + rate / (F:ℚ)) ^ (T * F) - 1) := div_pos hnum hden
  refine ⟨Int.ceil_pos.mpr hform_pos, ?_, ?_⟩
  · have hTq : (0:ℚ) < (T:ℚ) := by exact_mod_cast lt_of_lt_of_le zero_lt_one hT
    have hTF : (0:ℚ) < (T:ℚ) * (F:ℚ) := mul_pos hTq hFq
    have hgeom := pow_sub_one_le_mul (1 + rate / (F:ℚ)) hx.le (T * F)
    have hle : P / ((T:ℚ) * (F:ℚ)) ≤
        P * (rate / (F:ℚ)) * (1 + rate / (F:ℚ)) ^ (T * F) /
          ((1 + rate / (F:ℚ)) ^ (T * F) - 1) := by
      rw [div_le_div_iff₀ hTF hden]
      have h1 : P * ((1 + rate / (F:ℚ)) ^ (T * F) - 1) ≤
          P * (((T * F : ℕ) : ℚ) * (1 + rate / (F:ℚ) - 1) *
            (1 + rate / (F:ℚ)) ^ (T * F)) :=
        mul_le_mul_of_nonneg_left hgeom hP.le
      calc P * ((1 + rate / (F:ℚ)) ^ (T * F) - 1) ≤
            P * (((T * F : ℕ) : ℚ) * (1 + rate / (F:ℚ) - 1) *
              (1 + rate / (F:ℚ)) ^ (T * F)) := h1
        _ = P * (rate / (F:ℚ)) * (1 + rate / (F:ℚ)) ^ (T * F) * ((T:ℚ) * (F:ℚ)) := by
            push_cast
            ring
    exact le_trans hle (Int.le_ceil _)
  · have hinv : P * (rate / (F:ℚ)) * (1 + rate / (F:ℚ)) ^ (T * F) ≤
        ((⌈P * (rate / (F:ℚ)) * (1 + rate / (F:ℚ)) ^ (T * F) /
          ((1 + rate / (F:ℚ)) ^ (T * F) - 1)⌉ : ℤ) : ℚ) *
          ((1 + rate / (F:ℚ)) ^ (T * F) - 1) := by
      have hc := Int.le_ceil (P * (rate / (F:ℚ)) * (1 + rate / (F:ℚ)) ^ (T * F) /
        ((1 + rate / (F:ℚ)) ^ (T * F) - 1))
      have := mul_le_mul_of_nonneg_right hc hden.le
      rwa [div_mul_cancel₀ _ hden.ne'] at this
    exact run_terminates rate F hr (T * F) P _ hinv

/-- Claim C2 witness. -/
theorem min_payment_amortizes_within_term_witness :
    0 < (1000:ℚ) ∧ 0 < (1/10:ℚ) ∧ (1/10:ℚ) < 1 ∧ 1 ≤ 1 ∧ 1 ≤ 1 ∧
      get_min_payment 1000 (1/10) 1 1 = some 1100 ∧
      (0 < (1100:ℤ) ∧ (1000:ℚ) / ((1:ℚ) * (1:ℚ)) ≤ ((1100:ℤ):ℚ) ∧
        ∃ k ≤ 1 * 1, remaining_payments_fuel (1 * 1) 1000 (1/10)
          (some ((1100:ℤ):ℚ)) 1 = some k) :=
  ⟨by norm_num, by norm_num, by norm_num, le_refl 1, le_refl 1,
    by norm_num [get_min_payment, Int.ceil_eq_iff],
    min_payment_amortizes_within_term 1000 (1/10) 1 1 1100 (by norm_num)
      (by norm_num) (by norm_num) (le_refl 1) (le_refl 1)
      (by norm_num [get_min_payment, Int.ceil_eq_iff])⟩

/-- Claim C3 (the code side): with a target payment exactly equal to the
interest due each period, the `while` loop of `remaining_payments` never
terminates — for every amount of fuel the simulation is still running
(`none`); no guard or distinguishable error exists in the code. -/
theorem payment_equal_to_interest_never_terminates (fuel : ℕ) :
    remaining_payments_fuel fuel 1000 (3/25) (some 10) 12 = none := by
  induction fuel with
  | zero => norm_num [remaining_payments_fuel]
  | succ f ih =>
    have h10 : interest_due 1000 (3/25) 12 = 10 := by norm_num [interest_due]
    have hb : (0:ℚ) < 1000 := by norm_num
    have hmin : min (10:ℚ) (1000 + interest_due 1000 (3/25) 12) = 10 := by
      rw [h10]; norm_num
    simp only [remaining_payments_fuel, if_pos hb, sim_payment, hmin, h10]
    norm_num [ih]

/-- Claim C4 (the code side): at `annual_interest_rate = 0` the formula's
denominator `(1+0)^n - 1` is `0.0` and Python raises `ZeroDivisionError`
(`none`), instead of returning `ceil(principal / (term*frequency)) = 3`. -/
theorem rate_zero_raises_division_error :
    get_min_payment 1000 0 30 12 = none := by
  norm_num [get_min_payment]

/-- Claim C5: when no target payment was given, each iteration of
`remaining_payments` pays the minimum payment recomputed for the current
balance with the fixed defaults of 30 years and 12 payments per year —
whatever `num_annual_payments` the caller passed (`F` below is arbitrary and
does not appear in the payment). -/
theorem no_target_recomputes_default_min_payment (fuel : ℕ) (balance rate : ℚ)
    (F : ℕ) (hb : 0 < balance) :
    remaining_payments_fuel (fuel + 1) balance rate none F =
      (get_min_payment balance rate 30 12).bind (fun mp =>
        (remaining_payments_fuel fuel
          (balance - ((mp : ℚ) - interest_due balance rate F)) rate none F).map
          (fun k => k + 1)) := by
  cases h : get_min_payment balance rate 30 12 <;>
    simp [remaining_payments_fuel, hb, sim_payment, h]

/-- Claim C5 witness. -/
theorem no_target_recomputes_default_min_payment_witness :
    0 < (1000:ℚ) ∧
      remaining_payments_fuel 1 1000 (1/10) none 4 =
        (get_min_payment 1000 (1/10) 30 12).bind (fun mp =>
          (remaining_payments_fuel 0
            (1000 - ((mp : ℚ) - interest_due 1000 (1/10) 4)) (1/10) none 4).map
            (fun k => k + 1)) :=
  ⟨by norm_num,
    no_target_recomputes_default_min_payment 0 1000 (1/10) 4 (by norm_num)⟩

/-- Claim C6: whenever the supplied target payment is strictly below the
computed minimum payment, `main` reports the insufficiency warning (which
carries no payment count) and the payoff simulator is never invoked — the
result is the same for every fuel, including fuel 0. -/
theorem insufficient_target_warns_without_simulating (fuel : ℕ)
    (mortgage_amount annual_interest_rate t : ℚ) (years num_annual_payments : ℕ)
    (mp : ℤ)
    (hmp : get_min_payment mortgage_amount annual_interest_rate years
      num_annual_payments = some mp)
    (ht : t < (mp : ℚ)) :
    main_fuel fuel mortgage_amount annual_interest_rate years num_annual_payments
      (some t) = some ⟨mp, MainOutcome.warning⟩ := by
  simp [main_fuel, hmp, ht]

/-- Claim C6 witness. -/
theorem insufficient_target_warns_without_simulating_witness :
    get_min_payment 1000 (1/10) 1 1 = some 1100 ∧ (50:ℚ) < ((1100:ℤ):ℚ) ∧
      main_fuel 0 1000 (1/10) 1 1 (some 50) = some ⟨1100, MainOutcome.warning⟩ :=
  ⟨by norm_num [get_min_payment, Int.ceil_eq_iff], by norm_num,
    insufficient_target_warns_without_simulating 0 1000 (1/10) 50 1 1 1100
      (by norm_num [get_min_payment, Int.ceil_eq_iff]) (by norm_num)⟩

/-- Claim C7: with a target payment given, the period's payment is
`min(targetPayment, balance + interestDue)`; when the cap applies the balance
after subtracting `payment - interestDue` is exactly zero, and the new
balance is never negative. -/
theorem target_payment_capped_never_overpays (t B rate : ℚ) (F : ℕ) :
    sim_payment B (interest_due B rate F) rate (some t) =
      some (min t (B + interest_due B rate F)) ∧
    (B + interest_due B rate F ≤ t →
      B - (min t (B + interest_due B rate F) - interest_due B rate F) = 0) ∧
    0 ≤ B - (min t (B + interest_due B rate F) - interest_due B rate F) := by
  refine ⟨rfl, ?_, ?_⟩
  · intro h
    rw [min_eq_right h]
    ring
  · rcases le_total t (B + interest_due B rate F) with h | h
    · rw [min_eq_left h]
      linarith
    · rw [min_eq_right h]
      linarith

/-- Claim C7 witness. -/
theorem target_payment_capped_never_overpays_witness :
    sim_payment 100 (interest_due 100 (1/10) 12) (1/10) (some 200) =
      some (min 200 (100 + interest_due 100 (1/10) 12)) ∧
    (100 + interest_due 100 (1/10) 12 ≤ 200 →
      (100:ℚ) - (min 200 (100 + interest_due 100 (1/10) 12) -
        interest_due 100 (1/10) 12) = 0) ∧
    0 ≤ (100:ℚ) - (min 200 (100 + interest_due 100 (1/10) 12) -
      interest_due 100 (1/10) 12) :=
  target_payment_capped_never_overpays 200 100 (1/10) 12

/-- Claim C8: in any simulated period, if the payment strictly exceeds the
interest due then the balance strictly decreases; and any payment at least
the minimum payment computed for the same balance, rate and term strictly
exceeds the interest due. -/
theorem payment_above_minimum_decreases_balance (B rate payment : ℚ) (T F : ℕ)
    (mp : ℤ) (hB : 0 < B) (hr0 : 0 < rate) (hT : 1 ≤ T) (hF : 1 ≤ F)
    (hmp : get_min_payment B rate T F = some mp) (hpay : (mp : ℚ) ≤ payment) :
    (∀ p : ℚ, interest_due B rate F < p → B - (p - interest_due B rate F) < B) ∧
    interest_due B rate F < payment := by
  constructor
  · intro p hp
    linarith
  · have hFq : (0:ℚ) < (F:ℚ) := by exact_mod_cast lt_of_lt_of_le zero_lt_one hF
    have hr : 0 < rate / (F:ℚ) := div_pos hr0 hFq
    have hx : 1 < 1 + rate / (F:ℚ) := by linarith
    have hn : T * F ≠ 0 := by positivity
    have hpow : 1 < (1 + rate / (F:ℚ)) ^ (T * F) := one_lt_pow₀ hx hn
    have hden : (0:ℚ) < (1 + rate / (F:ℚ)) ^ (T * F) - 1 := by linarith
    rw [get_min_payment_eq B rate T F hr0 hT hF] at hmp
    obtain rfl : mp = ⌈B * (rate / (F:ℚ)) * (1 + rate / (F:ℚ)) ^ (T * F) /
        ((1 + rate / (F:ℚ)) ^ (T * F) - 1)⌉ := (Option.some.inj hmp).symm
    have hi : interest_due B rate F = B * (rate / (F:ℚ)) := rfl
    have hlt : B * (rate / (F:ℚ)) <
        B * (rate / (F:ℚ)) * (1 + rate / (F:ℚ)) ^ (T * F) /
          ((1 + rate / (F:ℚ)) ^ (T * F) - 1) := by
      rw [lt_div_iff₀ hden]
      nlinarith [mul_pos hB hr]
    have hceil := Int.le_ceil (B * (rate / (F:ℚ)) * (1 + rate / (F:ℚ)) ^ (T * F) /
      ((1 + rate / (F:ℚ)) ^ (T * F) - 1))
    rw [hi]
    linarith

/-- Claim C8 witness. -/
theorem payment_above_minimum_decreases_balance_witness :
    0 < (1000:ℚ) ∧ 0 < (1/10:ℚ) ∧ 1 ≤ 1 ∧ 1 ≤ 1 ∧
      get_min_payment 1000 (1/10) 1 1 = some 1100 ∧ ((1100:ℤ):ℚ) ≤ 1100 ∧
      ((∀ p : ℚ, interest_due 1000 (1/10) 1 < p →
        (1000:ℚ) - (p - interest_due 1000 (1/10) 1) < 1000) ∧
       interest_due 1000 (1/10) 1 < 1100) :=
  ⟨by norm_num, by norm_num, le_refl 1, le_refl 1,
    by norm_num [get_min_payment, Int.ceil_eq_iff], by norm_num,
    payment_above_minimum_decreases_balance 1000 (1/10) 1100 1 1 1100
      (by norm_num) (by norm_num) (le_refl 1) (le_refl 1)
      (by norm_num [get_min_payment, Int.ceil_eq_iff]) (by norm_num)⟩

/-- Claim C9: for principal 200000, annual rate 0.05, term 30 years,
12 payments per year, the minimum payment is exactly 1074, and `main` with no
target payment reports payoff completion in exactly 360 payments. -/
theorem concrete_scenario_pays_off_in_360 :
    get_min_payment 200000 (1/20) 30 12 = some 1074 ∧
    main_fuel 360 200000 (1/20) 30 12 none =
      some ⟨1074, MainOutcome.payoff 1074 360⟩ := by
  have hmp : get_min_payment 200000 (1/20) 30 12 = some 1074 := by
    norm_num [get_min_payment, Int.ceil_eq_iff]
  have hr : 0 < (1/20 : ℚ) / ((12:ℕ):ℚ) := by norm_num
  have hup := run_terminates (1/20) 12 hr 360 200000 ((1074:ℤ):ℚ) (by norm_num)
  rcases hup with ⟨k, hk, hrun⟩
  have hlow := run_lower (1/20) 12 hr 359 200000 ((1074:ℤ):ℚ) (by norm_num)
    (by norm_num) 360 k hrun
  have hk360 : k = 360 := by omega
  subst hk360
  refine ⟨hmp, ?_⟩
  simp only [main_fuel, hmp, Option.getD_none]
  rw [if_neg (lt_irrefl ((1074:ℤ):ℚ)), hrun]
  norm_num

/-- Claim C10: `parse_args` ignores its `arglist` parameter entirely — the
result is determined solely by the namespace parsed from the process's actual
`sys.argv` — and a target payment of exactly 0 bypasses the negativity
validation, because line 160 tests the value's truthiness (0.0 is falsy)
before comparing it to zero, so the target-payment error cannot be raised. -/
theorem parse_args_ignores_arglist_and_zero_target_bypasses_check
    (arglist₁ arglist₂ : List String) (a : Args) (h : a.target_payment = some 0) :
    parse_args arglist₁ a = parse_args arglist₂ a ∧
    target_payment_check a.target_payment = false ∧
    validate_args a ≠ Except.error "target payment must be positive" := by
  have hcheck : target_payment_check a.target_payment = false := by
    rw [h]
    simp [target_payment_check]
  refine ⟨rfl, hcheck, ?_⟩
  unfold validate_args
  rw [hcheck]
  split_ifs <;> simp_all

/-- Claim C10 witness. -/
theorem parse_args_ignores_arglist_and_zero_target_bypasses_check_witness :
    (Args.mk 1000 (1/10) 30 12 (some 0)).target_payment = some 0 ∧
    (parse_args ["ignored"] (Args.mk 1000 (1/10) 30 12 (some 0)) =
      parse_args [] (Args.mk 1000 (1/10) 30 12 (some 0)) ∧
     target_payment_check (Args.mk 1000 (1/10) 30 12 (some 0)).target_payment = false ∧
     validate_args (Args.mk 1000 (1/10) 30 12 (some 0)) ≠
       Except.error "target payment must be positive") :=
  ⟨rfl, parse_args_ignores_arglist_and_zero_target_bypasses_check
    ["ignored"] [] (Args.mk 1000 (1/10) 30 12 (some 0)) rfl⟩

end Mortgage
